import Mathlib

/-!
Verification of the Game of Life implementation in `src/index.js`.

The program keeps its cell values in a plain JS object `state.currentCellState`
keyed by strings of the form `"row_col"`.  We embed such an object as an
association list over coordinate pairs: the key `(r, c)` stands for the id
string `"r_c"` (the two representations are in bijection on the ids the
program ever forms, which are pairs of decimal naturals).  Property insertion
order of a JS object with such keys is insertion order, which the list models.

JS numbers that can be `NaN` (the user-tunable configuration scalars) are
embedded as `Option ℚ`, with `none` standing for `NaN`.  `Math.random()` is
modelled as an ambient stream of rational draws `rng : ℕ → ℚ` together with a
cursor `rngIdx`; each call to `Math.random()` reads the draw at the cursor and
advances it.
-/

namespace GameOfLife

/-- Coordinate pair `(row, col)`, standing for the id string `"row_col"`. -/
abbrev Coord := ℕ × ℕ

/-- A JS object holding cell values: insertion-ordered own properties. -/
abbrev CellMap := List (Coord × ℕ)

/-- A JS number that may be `NaN` (`none`). -/
abbrev JSNum := Option ℚ

/-- JS truthiness of a number: `0` and `NaN` are falsy, everything else truthy. -/
def jsTruthy (x : JSNum) : Bool :=
  match x with
  | none => false
  | some q => q != 0

/-- JS `<` between a plain number and a possibly-`NaN` number: any comparison
with `NaN` is false. -/
def jsLtNum (x : ℚ) (y : JSNum) : Bool :=
  match y with
  | none => false
  | some q => decide (x < q)

/-- Property read `obj[key]`: the value at the first (and, on genuine JS
objects, only) entry bearing the key; `none` models `undefined`. -/
def jsGet (m : CellMap) (k : Coord) : Option ℕ :=
  match m with
  | [] => none
  | kv :: rest => if kv.1 = k then some kv.2 else jsGet rest k

/-- Property write `obj[key] = v`: JS object keys are unique, and assignment to
an existing key updates the value in place, otherwise the key is appended.  We
rewrite every entry bearing the key (on unique-key maps, exactly one entry). -/
def jsSet (m : CellMap) (k : Coord) (v : ℕ) : CellMap :=
  if (jsGet m k).isSome then
    m.map (fun kv => if kv.1 = k then (k, v) else kv)
  else
    m ++ [(k, v)]

/-- `const ROWS = 30`. -/
def ROWS : ℕ := 30

/-- `const COLS = 50`. -/
def COLS : ℕ := 50

/-- `const MAX_ALIVE_NEIGHBORS = 3`. -/
def MAX_ALIVE_NEIGHBORS : ℤ := 3

/-- `const MIN_ALIVE_NEIGHBORS = 2`. -/
def MIN_ALIVE_NEIGHBORS : ℤ := 2

/-- `const LIGHTBLUE = 'rgb(122, 215, 240)'`. -/
def LIGHTBLUE : String := "rgb(122, 215, 240)"

/-- `const WHITE = 'rgb(255, 255, 255)'`. -/
def WHITE : String := "rgb(255, 255, 255)"

/-- A DOM cell element: its id (a coordinate pair, modelling `"i_j"`) and its
current `style.backgroundColor` string (`""` on a freshly created element). -/
structure Cell where
  id : Coord
  backgroundColor : String
deriving DecidableEq

/-- The global `state` object of the program, together with the ambient
`Math.random()` stream and the list of DOM elements with class `cell`
(in document order, as returned by `getElementsByClassName('cell')`). -/
structure ProgState where
  internalN : ℕ
  generation : ℕ
  isProgressing : Bool
  chanceToBeLivingCell : JSNum
  currentCellState : CellMap
  nextCellState : CellMap
  progressionSpeed : JSNum
  rng : ℕ → ℚ
  rngIdx : ℕ
  cells : List Cell

/-- `countNeighbors({numericRow, numericCol})`, lines 107-119 of `src/index.js`.
The loop variables `i`, `j` range over `-1, 0, 1`; the source computes
`col = (numericRow + i + COLS) % COLS` and `row = (numericCol + j + ROWS) % ROWS`
(note the swapped moduli, reproduced verbatim) and looks up the id
`` `${col}_${row}` ``.  The dividends are nonnegative, so the JS `%` (sign of
the dividend) agrees with `Int.emod` here.  Line 117 subtracts the value at the
cell's own key without a `hasOwnProperty` guard; in JS an absent key would make
the result `NaN`.  Every use below is at an in-range coordinate of a grid that
stores a value for each in-range coordinate, where that key is present, so the
absent case (modelled as subtracting 0) is unreachable. -/
def countNeighbors (cur : CellMap) (numericRow numericCol : ℕ) : ℤ :=
  let offs : List ℤ := [-1, 0, 1]
  let sum : ℤ := offs.foldl (fun sum i =>
    offs.foldl (fun sum j =>
      let col : ℤ := ((numericRow : ℤ) + i + (COLS : ℤ)) % (COLS : ℤ)
      let row : ℤ := ((numericCol : ℤ) + j + (ROWS : ℤ)) % (ROWS : ℤ)
      let cellId : Coord := (col.toNat, row.toNat)
      sum + (((jsGet cur cellId).getD 0 : ℕ) : ℤ)) sum) 0
  sum - (((jsGet cur (numericRow, numericCol)).getD 0 : ℕ) : ℤ)

/-- The per-cell branch of `evolve` (lines 88-94): given the current value and
the neighbor sum, the next value. -/
def applyRule (cellState : ℕ) (sumOfNeighbors : ℤ) : ℕ :=
  if cellState = 1 ∧ (sumOfNeighbors > MAX_ALIVE_NEIGHBORS ∨ sumOfNeighbors < MIN_ALIVE_NEIGHBORS) then
    0
  else if cellState = 0 ∧ sumOfNeighbors = MAX_ALIVE_NEIGHBORS then
    1
  else
    cellState

/-- The body of the `for (const [cellId, cellState] of Object.entries(...))`
loop in `evolve` (lines 83-95), threading the whole program state: each
iteration computes `countNeighbors` by reading `state.currentCellState` of the
state as it stands at that iteration, and writes one entry of
`state.nextCellState`.  `cellId.split('_')` followed by `Number` recovers the
coordinate pair, which is the identity on our embedding of ids. -/
def evolveEntriesLoop (entries : List (Coord × ℕ)) (st : ProgState) : ProgState :=
  match entries with
  | [] => st
  | (cellId, cellState) :: rest =>
      let numericRow := cellId.1
      let numericCol := cellId.2
      let sumOfNeighbors := countNeighbors st.currentCellState numericRow numericCol
      evolveEntriesLoop rest
        { st with nextCellState := jsSet st.nextCellState cellId (applyRule cellState sumOfNeighbors) }

/-- JS truthiness of `state.currentCellState[cell.id]` in the render loop of
`evolve` (line 99): `undefined` and `0` are falsy. -/
def jsTruthyNat (o : Option ℕ) : Bool :=
  match o with
  | none => false
  | some v => v != 0

/-- `evolve()`, lines 81-105: iterate over a snapshot of
`Object.entries(state.currentCellState)`, filling `state.nextCellState`; then
swap (`state.currentCellState = state.nextCellState; state.nextCellState = {}`);
then repaint every cell element from the new current state. -/
def evolveState (st : ProgState) : ProgState :=
  let entries := st.currentCellState
  let st1 := evolveEntriesLoop entries st
  let st2 := { st1 with currentCellState := st1.nextCellState, nextCellState := [] }
  { st2 with cells := st2.cells.map (fun cell =>
      if jsTruthyNat (jsGet st2.currentCellState cell.id) then
        { cell with backgroundColor := LIGHTBLUE }
      else
        { cell with backgroundColor := WHITE }) }

/-- The body of the nested `for` loops of `initializeUniverse` (lines 57-78)
at indices `(i, j)`: create a cell element (`backgroundColor` initially `""`),
paint it `LIGHTBLUE` when `state.chanceToBeLivingCell` is truthy and
`Math.random() * (100 - 1) + 1 < state.chanceToBeLivingCell`; store 1 exactly
when the element's `backgroundColor` compares `===` to `LIGHTBLUE` (the browser
stores that literal unchanged, so `===` is string equality); append the element.
The `&&` short-circuits in JS, so `Math.random()` is consulted — and the draw
cursor advanced — only when the chance is truthy; when it is falsy the
`jsLtNum` value is irrelevant since `false && x = false`. -/
def initCellStep (s : ProgState) (i j : ℕ) : ProgState :=
  let doDraw := jsTruthy s.chanceToBeLivingCell
  let cond := doDraw && jsLtNum (s.rng s.rngIdx * (100 - 1) + 1) s.chanceToBeLivingCell
  let backgroundColor := if cond then LIGHTBLUE else ""
  let value : ℕ := if backgroundColor = LIGHTBLUE then 1 else 0
  { s with
      rngIdx := if doDraw then s.rngIdx + 1 else s.rngIdx
      currentCellState := jsSet s.currentCellState (i, j) value
      cells := s.cells ++ [⟨(i, j), backgroundColor⟩] }

/-- `initializeUniverse()`, lines 56-79: the nested loops over
`i < ROWS`, `j < COLS`. -/
def initializeUniverse (st : ProgState) : ProgState :=
  (List.range ROWS).foldl (fun s1 i =>
    (List.range COLS).foldl (fun s j => initCellStep s i j) s1) st

/-- `clearUniverse()`, lines 137-144: reset the generation counter and, for
every cell element, repaint it white and zero its entry.  The repaint and the
zeroing act on disjoint parts of the state, so the single source loop is
modelled as a map over the elements and a fold over their ids. -/
def clearUniverse (st : ProgState) : ProgState :=
  { st with
      generation := 0
      cells := st.cells.map (fun cell => { cell with backgroundColor := WHITE })
      currentCellState := st.cells.foldl (fun m cell => jsSet m cell.id 0) st.currentCellState }

/-- `randomize()`, lines 146-149. -/
def randomize (st : ProgState) : ProgState :=
  initializeUniverse (clearUniverse st)

/-- `/[0-9]+/.test(value)`: the regex is unanchored, so it tests whether the
string — embedded as its list of characters — contains at least one decimal
digit anywhere. -/
def regexTestDigits (value : List Char) : Bool :=
  value.any Char.isDigit

/-- Decimal parse of a digit string, most significant digit first. -/
def digitsToNat (value : List Char) : ℕ :=
  value.foldl (fun n c => n * 10 + (c.toNat - '0'.toNat)) 0

/-- Models the JS `Number(value)` conversion on the string shapes relevant
here: a nonempty string of decimal digits parses to that natural; a string
such as `"1a"` that contains a character making it match no JS numeric literal
form converts to `NaN` (`none`).  (Other `Number` inputs — empty or blank
strings, signs, decimals, exponents, hex — do not arise in the claims.) -/
def jsNumberOfDigits (value : List Char) : JSNum :=
  if value ≠ [] ∧ value.all Char.isDigit then some (digitsToNat value : ℚ) else none

/-- `speedProgressionInput.onkeyup` (lines 42-47), as a function of the prior
stored `state.progressionSpeed` and the field's current string value; the
handler for `percentCellIsAliveInput` (lines 49-54) is identical in shape. -/
def onKeyupNumericField (prev : JSNum) (value : List Char) : JSNum :=
  if regexTestDigits value then jsNumberOfDigits value else prev

/-- The grid coordinates in the row-major order the initialization loops
visit them. -/
def allCoords : List Coord :=
  (List.range ROWS).flatMap (fun i => (List.range COLS).map (fun j => (i, j)))

/-- Test-harness grid builder: the full `ROWS × COLS` grid (as built by
`initializeUniverse` starting from an empty object) whose live cells are
exactly the listed coordinates. -/
def mkGrid (alive : List Coord) : CellMap :=
  allCoords.map (fun k => (k, if k ∈ alive then 1 else 0))

/-- The neighbor-count computation as the spec (§4.2) words it: sum the live
values at the 9 offsets `(dr, dc)`, `dr, dc ∈ {-1,0,1}`, with the row wrapped
as `((r+dr) mod ROWS + ROWS) mod ROWS` and the column as
`((c+dc) mod COLS + COLS) mod COLS`, then subtract the cell's own value.
Stated from the spec's words for comparison with `countNeighbors`. -/
def specNeighborCount (cur : CellMap) (r c : ℕ) : ℤ :=
  let offs : List ℤ := [-1, 0, 1]
  let sum : ℤ := offs.foldl (fun sum dr =>
    offs.foldl (fun sum dc =>
      let wr : ℤ := (((r : ℤ) + dr) % (ROWS : ℤ) + (ROWS : ℤ)) % (ROWS : ℤ)
      let wc : ℤ := (((c : ℤ) + dc) % (COLS : ℤ) + (COLS : ℤ)) % (COLS : ℤ)
      sum + (((jsGet cur (wr.toNat, wc.toNat)).getD 0 : ℕ) : ℤ)) sum) 0
  sum - (((jsGet cur (r, c)).getD 0 : ℕ) : ℤ)

/-- The grid of claim C1: only `(0,0)` and `(ROWS-1, COLS-1) = (29,49)` alive. -/
def gridC1 : CellMap := mkGrid [(0, 0), (29, 49)]

/-- The grid of the C2 counterexample: only `(0, 30)` alive. -/
def gridC2 : CellMap := mkGrid [(0, 30)]

/-- The spec's B3/S23 rule as worded in §4.2 step 2: a live cell survives with
neighbor count 2 or 3, a dead cell is born with count exactly 3. -/
def lifeRuleSpec (v : ℕ) (count : ℤ) : ℕ :=
  if v = 1 then (if count = 2 ∨ count = 3 then 1 else 0)
  else (if count = 3 then 1 else 0)

/-- A coordinate within the grid bounds. -/
def inRange (k : Coord) : Prop := k.1 < ROWS ∧ k.2 < COLS

instance (k : Coord) : Decidable (inRange k) := by
  unfold inRange; infer_instance

/-- The data-model invariant of the cell-state mapping (spec §3): exactly one
entry for each in-range coordinate, no entry for any out-of-range coordinate,
and every stored value binary.  With unique keys, "exactly one entry per
in-range coordinate and none out of range" is: the key list has no duplicates
and a key is present exactly when it is in range. -/
def gridInvariant (m : CellMap) : Prop :=
  (m.map Prod.fst).Nodup ∧
  (∀ k : Coord, inRange k ↔ (jsGet m k).isSome) ∧
  (∀ kv ∈ m, kv.2 = 0 ∨ kv.2 = 1)

/-- What the entry loop of `evolve` accumulates into `state.nextCellState`
when every neighbor count is taken on the fixed snapshot `cur`. -/
def snapshotFold (cur : CellMap) (entries : List (Coord × ℕ)) (next0 : CellMap) : CellMap :=
  entries.foldl
    (fun next e => jsSet next e.1 (applyRule e.2 (countNeighbors cur e.1.1 e.1.2)))
    next0

/-- The next-generation mapping as a pure function of one snapshot of the
current mapping: what `evolve`'s loop builds in `state.nextCellState` when
every neighbor count is taken on the snapshot. -/
def snapshotNext (cur : CellMap) : CellMap :=
  snapshotFold cur cur []

/-- The initialization loops flattened to a single fold over a coordinate
list (proof-side restatement of the nested loops of `initializeUniverse`). -/
def initFold (l : List Coord) (s : ProgState) : ProgState :=
  l.foldl (fun s k => initCellStep s k.1 k.2) s

/-- The per-cell birth condition of `initializeUniverse` as seen at state `s`
(the conjunction on line 68, with the draw at the current cursor). -/
def initCond (s : ProgState) : Bool :=
  jsTruthy s.chanceToBeLivingCell &&
    jsLtNum (s.rng s.rngIdx * (100 - 1) + 1) s.chanceToBeLivingCell

/-- A program state as at page load, before `initializeUniverse()` runs:
empty cell maps, no cell elements, generation 0, sample configuration values
and a sample random stream. -/
def blankState : ProgState :=
  { internalN := 0
    generation := 0
    isProgressing := false
    chanceToBeLivingCell := some 50
    currentCellState := []
    nextCellState := []
    progressionSpeed := some 500
    rng := fun _ => 0
    rngIdx := 0
    cells := [] }

/-- The state right after startup (`initializeUniverse()` on line 151). -/
def startupState : ProgState := initializeUniverse blankState

/-- A state whose configured chance is the falsy value 0. -/
def chanceZeroState : ProgState := { blankState with chanceToBeLivingCell := some 0 }

/-- A state whose configured chance is 1 (one percent). -/
def chanceOneState : ProgState := { blankState with chanceToBeLivingCell := some 1 }

/-- A one-live-cell state with an empty `nextCellState`, as at any point the
program calls `evolve()`. -/
def detStateA : ProgState :=
  { internalN := 0
    generation := 0
    isProgressing := false
    chanceToBeLivingCell := some 50
    currentCellState := [((0, 0), 1)]
    nextCellState := []
    progressionSpeed := some 500
    rng := fun _ => 0
    rngIdx := 0
    cells := [] }

/-- Same cell-state mapping as `detStateA`, but every other component —
generation, run flag, configuration, random stream and cursor — differs. -/
def detStateB : ProgState :=
  { internalN := 3
    generation := 9
    isProgressing := true
    chanceToBeLivingCell := some 2
    currentCellState := [((0, 0), 1)]
    nextCellState := []
    progressionSpeed := some 40
    rng := fun _ => 1/2
    rngIdx := 7
    cells := [] }

lemma jsGet_map_pair (f : Coord → ℕ) (l : List Coord) (k : Coord) :
    jsGet (l.map (fun x => (x, f x))) k = if k ∈ l then some (f k) else none := by
  induction l with
  | nil => simp [jsGet]
  | cons a t ih =>
      by_cases h : a = k
      · subst h; simp [jsGet]
      · simp [jsGet, h, ih, Ne.symm h]

lemma mem_allCoords (k : Coord) : k ∈ allCoords ↔ k.1 < ROWS ∧ k.2 < COLS := by
  constructor
  · intro h
    simp only [allCoords, List.mem_flatMap, List.mem_map, List.mem_range] at h
    obtain ⟨i, hi, j, hj, rfl⟩ := h
    exact ⟨hi, hj⟩
  · intro ⟨h1, h2⟩
    simp only [allCoords, List.mem_flatMap, List.mem_map, List.mem_range]
    exact ⟨k.1, h1, k.2, h2, rfl⟩

lemma jsGet_mkGrid (alive : List Coord) (k : Coord) :
    jsGet (mkGrid alive) k =
      if k.1 < ROWS ∧ k.2 < COLS then some (if k ∈ alive then 1 else 0) else none := by
  rw [mkGrid, jsGet_map_pair]
  by_cases h : k ∈ allCoords
  · rw [if_pos h, if_pos ((mem_allCoords k).mp h)]
  · rw [if_neg h, if_neg (fun hc => h ((mem_allCoords k).mpr hc))]

lemma mkGrid_values (alive : List Coord) : ∀ kv ∈ mkGrid alive, kv.2 = 0 ∨ kv.2 = 1 := by
  intro kv hkv
  simp only [mkGrid, List.mem_map] at hkv
  obtain ⟨k, _, rfl⟩ := hkv
  by_cases h : k ∈ alive <;> simp [h]

/-- C1: the implemented neighbor count is not the claimed toroidal sum.  On the
full 30×50 grid whose only live cells are `(0,0)` and `(29,49)`, the
implementation reports 0 neighbors at `(0,0)` — it wraps the row index modulo
`COLS` and the column index modulo `ROWS`, so the opposite corner is never
examined — while the claimed computation (wrapping row modulo rows and column
modulo cols) counts the corner cell and yields 1.  This also witnesses the
failure of the "in particular" part: the count at `(0,0)` does not include the
live cell at `(rows-1, cols-1)`. -/
theorem C1_countNeighbors_not_toroidal :
    countNeighbors gridC1 0 0 = 0 ∧ specNeighborCount gridC1 0 0 = 1 := by
  constructor <;>
  · simp only [countNeighbors, specNeighborCount, gridC1, List.foldl_cons, List.foldl_nil,
      jsGet_mkGrid]
    decide

/-- C2: the neighbor count is not always in `[0, 8]`.  `gridC2` is the full
30×50 grid (every cell value 0 or 1, exactly one entry per in-range
coordinate) whose only live cell is `(0, 30)`; at the in-range coordinate
`(0, 30)` the implementation returns `-1`: because the column index is wrapped
modulo `ROWS = 30`, the center lookup of the offset loop lands on `(0, 0)`
rather than the cell itself, so the cell's own value 1 is subtracted from a
sum that never included it. -/
theorem C2_countNeighbors_returns_negative :
    (∀ kv ∈ gridC2, kv.2 = 0 ∨ kv.2 = 1) ∧ (0:ℕ) < ROWS ∧ (30:ℕ) < COLS ∧
      countNeighbors gridC2 0 30 = -1 := by
  refine ⟨mkGrid_values _, by decide, by decide, ?_⟩
  simp only [countNeighbors, gridC2, List.foldl_cons, List.foldl_nil, jsGet_mkGrid]
  decide

/-- C3: the per-cell branch of `evolve` implements exactly the B3/S23 rule:
for a binary current value and any neighbor count, a live cell stays alive
exactly with count 2 or 3 and a dead cell becomes alive exactly with count 3. -/
theorem C3_evolve_rule_is_B3S23 (v : ℕ) (count : ℤ) (hv : v = 0 ∨ v = 1) :
    applyRule v count = lifeRuleSpec v count := by
  rcases hv with h | h
  · subst h
    simp only [applyRule, lifeRuleSpec, MAX_ALIVE_NEIGHBORS, MIN_ALIVE_NEIGHBORS]
    norm_num
  · subst h
    simp only [applyRule, lifeRuleSpec, MAX_ALIVE_NEIGHBORS, MIN_ALIVE_NEIGHBORS]
    norm_num
    split_ifs <;> omega

theorem C3_evolve_rule_is_B3S23_witness :
    ((1:ℕ) = 0 ∨ (1:ℕ) = 1) ∧ applyRule 1 3 = lifeRuleSpec 1 3 :=
  ⟨Or.inr rfl, C3_evolve_rule_is_B3S23 1 3 (Or.inr rfl)⟩

/-- C6: malformed input can corrupt the configuration.  The validation regex
`/[0-9]+/` is unanchored, so it accepts any string containing a digit: the
field value `"1a"` is not digit-only, yet it passes the test and
`Number("1a") = NaN` is stored, replacing the prior value 500 instead of
retaining it. -/
theorem C6_keyup_accepts_malformed_input :
    (['1', 'a'].all Char.isDigit = false) ∧
      onKeyupNumericField (some 500) ['1', 'a'] = none ∧
      onKeyupNumericField (some 500) ['1', 'a'] ≠ some 500 := by
  refine ⟨by decide, by decide, by decide⟩

lemma jsGet_jsSet_self (m : CellMap) (k : Coord) (v : ℕ) :
    jsGet (jsSet m k v) k = some v := by
  unfold jsSet
  split_ifs with h
  · induction m with
    | nil => simp [jsGet] at h
    | cons a t ih =>
        by_cases ha : a.1 = k
        · simp [jsGet, ha]
        · simp only [jsGet, ha, if_false] at h
          simp [jsGet, ha, ih h]
  · induction m with
    | nil => simp [jsGet]
    | cons a t ih =>
        have ha : ¬ a.1 = k := by
          intro hc
          simp [jsGet, hc] at h
        simp only [jsGet, ha, if_false] at h
        simp [jsGet, ha, ih h]

lemma jsGet_map_update_ne (m : CellMap) (k k' : Coord) (v : ℕ) (h : k' ≠ k) :
    jsGet (m.map (fun kv => if kv.1 = k then (k, v) else kv)) k' = jsGet m k' := by
  induction m with
  | nil => simp [jsGet]
  | cons a t ih =>
      by_cases ha : a.1 = k
      · simp [jsGet, ha, Ne.symm h, ih]
      · simp [jsGet, ha, ih]

lemma jsGet_append_single_ne (m : CellMap) (k k' : Coord) (v : ℕ) (h : k' ≠ k) :
    jsGet (m ++ [(k, v)]) k' = jsGet m k' := by
  induction m with
  | nil => simp [jsGet, Ne.symm h]
  | cons a t ih => by_cases ha : a.1 = k' <;> simp [jsGet, ha, ih]

lemma jsGet_jsSet_ne (m : CellMap) (k k' : Coord) (v : ℕ) (h : k' ≠ k) :
    jsGet (jsSet m k v) k' = jsGet m k' := by
  unfold jsSet
  split_ifs with hs
  · exact jsGet_map_update_ne m k k' v h
  · exact jsGet_append_single_ne m k k' v h

lemma jsGet_isSome_jsSet (m : CellMap) (k k' : Coord) (v : ℕ) :
    (jsGet (jsSet m k v) k').isSome ↔ (jsGet m k').isSome ∨ k' = k := by
  by_cases h : k' = k
  · subst h; simp [jsGet_jsSet_self]
  · simp [jsGet_jsSet_ne m k k' v h, h]

lemma jsSet_keys (m : CellMap) (k : Coord) (v : ℕ) :
    (jsSet m k v).map Prod.fst =
      if (jsGet m k).isSome then m.map Prod.fst else m.map Prod.fst ++ [k] := by
  unfold jsSet
  split_ifs with h
  · rw [List.map_map]
    refine List.map_congr_left (fun kv _ => ?_)
    by_cases hkv : kv.1 = k <;> simp [hkv]
  · simp

lemma jsGet_isSome_iff_mem (m : CellMap) (k : Coord) :
    (jsGet m k).isSome ↔ k ∈ m.map Prod.fst := by
  induction m with
  | nil => simp [jsGet]
  | cons a t ih =>
      by_cases ha : a.1 = k
      · simp [jsGet, ha]
      · simp [jsGet, ha, ih, Ne.symm ha]

lemma jsSet_nodupKeys (m : CellMap) (k : Coord) (v : ℕ)
    (h : (m.map Prod.fst).Nodup) : ((jsSet m k v).map Prod.fst).Nodup := by
  rw [jsSet_keys]
  split_ifs with hs
  · exact h
  · have hk : k ∉ m.map Prod.fst := by
      rw [← jsGet_isSome_iff_mem]
      simpa using hs
    simp [List.nodup_append, h, hk]

lemma mem_jsSet (m : CellMap) (k : Coord) (v : ℕ) (kv : Coord × ℕ)
    (h : kv ∈ jsSet m k v) : kv = (k, v) ∨ kv ∈ m := by
  unfold jsSet at h
  split_ifs at h with hs
  · obtain ⟨a, ha, rfl⟩ := List.mem_map.mp h
    by_cases hak : a.1 = k
    · simp [hak]
    · simp [hak]; right; exact ha
  · rcases List.mem_append.mp h with h1 | h1
    · exact Or.inr h1
    · simp at h1; exact Or.inl h1

lemma jsSet_entries_key (m : CellMap) (k : Coord) (v : ℕ) (kv : Coord × ℕ)
    (h : kv ∈ jsSet m k v) (hk : kv.1 = k) : kv = (k, v) := by
  unfold jsSet at h
  split_ifs at h with hs
  · obtain ⟨a, _, rfl⟩ := List.mem_map.mp h
    by_cases hak : a.1 = k
    · simp [hak]
    · simp [hak] at hk
  · rcases List.mem_append.mp h with h1 | h1
    · exfalso
      have hmem : k ∈ m.map Prod.fst := hk ▸ List.mem_map_of_mem Prod.fst h1
      have hsome : (jsGet m k).isSome := (jsGet_isSome_iff_mem m k).mpr hmem
      simp [hsome] at hs
    · simpa using h1

lemma jsGet_eq_of_nodup (m : CellMap) (kv : Coord × ℕ)
    (hnd : (m.map Prod.fst).Nodup) (h : kv ∈ m) : jsGet m kv.1 = some kv.2 := by
  induction m with
  | nil => simp at h
  | cons a t ih =>
      rcases List.mem_cons.mp h with rfl | ht
      · simp [jsGet]
      · have ha : a.1 ≠ kv.1 := by
          intro hc
          have : kv.1 ∈ t.map Prod.fst := List.mem_map_of_mem Prod.fst ht
          exact (List.nodup_cons.mp hnd).1 (hc ▸ this)
        simp only [jsGet, ha, if_false]
        exact ih (List.nodup_cons.mp hnd).2 ht

lemma jsSet_eq_self (m : CellMap) (k : Coord) (v : ℕ)
    (hs : (jsGet m k).isSome) (hv : ∀ kv ∈ m, kv.1 = k → kv.2 = v) :
    jsSet m k v = m := by
  unfold jsSet
  rw [if_pos hs]
  have : ∀ kv ∈ m, (if kv.1 = k then (k, v) else kv) = id kv := by
    intro kv hkv
    by_cases hk : kv.1 = k
    · simp only [hk, if_true, id]
      exact Prod.ext (hk.symm) ((hv kv hkv hk).symm)
    · simp [hk]
  rw [List.map_congr_left this, List.map_id]

section WriteFold

variable {ι : Type}

lemma genFold_jsGet_not_mem (key : ι → Coord) (val : ι → ℕ) (l : List ι)
    (n0 : CellMap) (k : Coord) (h : k ∉ l.map key) :
    jsGet (l.foldl (fun n e => jsSet n (key e) (val e)) n0) k = jsGet n0 k := by
  induction l generalizing n0 with
  | nil => rfl
  | cons e rest ih =>
      simp only [List.map_cons, List.mem_cons, not_or] at h
      rw [List.foldl_cons, ih (jsSet n0 (key e) (val e)) h.2,
        jsGet_jsSet_ne n0 (key e) k (val e) h.1]

lemma genFold_jsGet_isSome (key : ι → Coord) (val : ι → ℕ) (l : List ι)
    (n0 : CellMap) (k : Coord) :
    (jsGet (l.foldl (fun n e => jsSet n (key e) (val e)) n0) k).isSome ↔
      (jsGet n0 k).isSome ∨ k ∈ l.map key := by
  induction l generalizing n0 with
  | nil => simp
  | cons e rest ih =>
      rw [List.foldl_cons, ih (jsSet n0 (key e) (val e))]
      rw [jsGet_isSome_jsSet n0 (key e) k (val e)]
      simp only [List.map_cons, List.mem_cons]
      tauto

lemma genFold_nodupKeys (key : ι → Coord) (val : ι → ℕ) (l : List ι)
    (n0 : CellMap) (h : (n0.map Prod.fst).Nodup) :
    (((l.foldl (fun n e => jsSet n (key e) (val e)) n0)).map Prod.fst).Nodup := by
  induction l generalizing n0 with
  | nil => exact h
  | cons e rest ih =>
      rw [List.foldl_cons]
      exact ih (jsSet n0 (key e) (val e)) (jsSet_nodupKeys n0 (key e) (val e) h)

lemma genFold_mem (key : ι → Coord) (val : ι → ℕ) (l : List ι)
    (n0 : CellMap) (kv : Coord × ℕ)
    (h : kv ∈ l.foldl (fun n e => jsSet n (key e) (val e)) n0) :
    kv ∈ n0 ∨ ∃ e ∈ l, kv = (key e, val e) := by
  induction l generalizing n0 with
  | nil => exact Or.inl h
  | cons e rest ih =>
      rw [List.foldl_cons] at h
      rcases ih (jsSet n0 (key e) (val e)) h with h1 | h1
      · rcases mem_jsSet n0 (key e) (val e) kv h1 with h2 | h2
        · exact Or.inr ⟨e, List.mem_cons_self e rest, h2⟩
        · exact Or.inl h2
      · obtain ⟨e1, he1, hkv⟩ := h1
        exact Or.inr ⟨e1, List.mem_cons_of_mem e he1, hkv⟩

lemma genFold_const_zero (key : ι → Coord) (l : List ι)
    (n0 : CellMap) (k : Coord) :
    jsGet (l.foldl (fun n e => jsSet n (key e) 0) n0) k =
      if k ∈ l.map key then some 0 else jsGet n0 k := by
  induction l generalizing n0 with
  | nil => simp
  | cons e rest ih =>
      rw [List.foldl_cons, ih (jsSet n0 (key e) 0)]
      by_cases hr : k ∈ rest.map key
      · simp [hr]
      · by_cases he : k = key e
        · subst he
          simp [hr, jsGet_jsSet_self]
        · simp [hr, he, jsGet_jsSet_ne n0 (key e) k 0 he]

lemma genFold_entries_written (key : ι → Coord) (l : List ι)
    (n0 : CellMap) (kv : Coord × ℕ)
    (h : kv ∈ l.foldl (fun n e => jsSet n (key e) 0) n0)
    (hk : kv.1 ∈ l.map key) : kv.2 = 0 := by
  induction l generalizing n0 with
  | nil => simp at hk
  | cons e rest ih =>
      rw [List.foldl_cons] at h
      by_cases hr : kv.1 ∈ rest.map key
      · exact ih (jsSet n0 (key e) 0) h hr
      · have he : kv.1 = key e := by
          simp only [List.map_cons, List.mem_cons] at hk
          tauto
        rcases genFold_mem key (fun _ => 0) rest (jsSet n0 (key e) 0) kv h with h1 | h1
        · have := jsSet_entries_key n0 (key e) 0 kv h1 he
          rw [this]
        · obtain ⟨e1, he1, hkv⟩ := h1
          exact absurd (by rw [hkv]; exact List.mem_map_of_mem key he1) hr

lemma genFold_fixed (key : ι → Coord) (l : List ι) (m : CellMap)
    (h : ∀ e ∈ l, (jsGet m (key e)).isSome ∧ ∀ kv ∈ m, kv.1 = key e → kv.2 = 0) :
    l.foldl (fun n e => jsSet n (key e) 0) m = m := by
  induction l with
  | nil => rfl
  | cons e rest ih =>
      rw [List.foldl_cons]
      have h1 := h e (List.mem_cons_self e rest)
      rw [jsSet_eq_self m (key e) 0 h1.1 h1.2]
      exact ih (fun e1 he1 => h e1 (List.mem_cons_of_mem e he1))

end WriteFold

lemma evolveEntriesLoop_eq (entries : List (Coord × ℕ)) (st : ProgState) :
    evolveEntriesLoop entries st =
      { st with nextCellState := snapshotFold st.currentCellState entries st.nextCellState } := by
  induction entries generalizing st with
  | nil => rfl
  | cons e rest ih =>
      obtain ⟨cellId, cellState⟩ := e
      rw [evolveEntriesLoop, ih]
      rfl

lemma evolveEntriesLoop_cur (entries : List (Coord × ℕ)) (st : ProgState) :
    (evolveEntriesLoop entries st).currentCellState = st.currentCellState := by
  rw [evolveEntriesLoop_eq]

lemma evolveState_cur (st : ProgState) (hnext : st.nextCellState = []) :
    (evolveState st).currentCellState = snapshotNext st.currentCellState := by
  rw [evolveState, evolveEntriesLoop_eq, snapshotNext, hnext]

/-- C4: within one `evolve()` call, every neighbor count reads the same
snapshot of current values.  First conjunct: no iteration of the entry loop —
however many entries are processed — modifies `state.currentCellState`, so
each iteration's `countNeighbors` reads exactly the pre-call snapshot; writes
go only to `state.nextCellState`.  Second conjunct: the current state is
replaced only by the single swap after the loop, so the new current mapping is
the pure function `snapshotNext` of the pre-call snapshot.  The hypothesis
records that `state.nextCellState` is the empty object whenever `evolve` is
invoked (it starts empty and is emptied again at the end of each call). -/
theorem C4_evolve_reads_one_snapshot (st : ProgState) (hnext : st.nextCellState = []) :
    (∀ entries, (evolveEntriesLoop entries st).currentCellState = st.currentCellState) ∧
    (evolveState st).currentCellState = snapshotNext st.currentCellState :=
  ⟨fun entries => evolveEntriesLoop_cur entries st, evolveState_cur st hnext⟩

theorem C4_evolve_reads_one_snapshot_witness :
    detStateA.nextCellState = [] ∧
      (evolveState detStateA).currentCellState = snapshotNext detStateA.currentCellState :=
  ⟨rfl, (C4_evolve_reads_one_snapshot detStateA rfl).2⟩

/-- C10: `evolve` is deterministic — its resulting cell-state mapping depends
only on the cell-state mapping it starts from.  Two program states that agree
on `currentCellState` (with the empty `nextCellState` every `evolve` call
starts with) but differ arbitrarily in generation counter, run flag,
configuration scalars, random stream and draw cursor produce equal
next-generation mappings: unlike initialization, evolution consumes no
randomness or other hidden input. -/
theorem C10_evolve_deterministic (s1 s2 : ProgState)
    (hcur : s1.currentCellState = s2.currentCellState)
    (h1 : s1.nextCellState = []) (h2 : s2.nextCellState = []) :
    (evolveState s1).currentCellState = (evolveState s2).currentCellState := by
  rw [evolveState_cur s1 h1, evolveState_cur s2 h2, hcur]

theorem C10_evolve_deterministic_witness :
    (evolveState detStateA).currentCellState = (evolveState detStateB).currentCellState :=
  C10_evolve_deterministic detStateA detStateB rfl rfl rfl

lemma lightblue_ne_empty : ¬ ("" : String) = LIGHTBLUE := by decide

lemma initCellStep_chance (s : ProgState) (i j : ℕ) :
    (initCellStep s i j).chanceToBeLivingCell = s.chanceToBeLivingCell := rfl

lemma initCellStep_rng (s : ProgState) (i j : ℕ) :
    (initCellStep s i j).rng = s.rng := rfl

lemma initCellStep_cells (s : ProgState) (i j : ℕ) :
    (initCellStep s i j).cells =
      s.cells ++ [⟨(i, j), if initCond s then LIGHTBLUE else ""⟩] := rfl

lemma initCellStep_cur (s : ProgState) (i j : ℕ) :
    (initCellStep s i j).currentCellState =
      jsSet s.currentCellState (i, j) (if initCond s then 1 else 0) := by
  unfold initCellStep initCond
  by_cases h : (jsTruthy s.chanceToBeLivingCell &&
      jsLtNum (s.rng s.rngIdx * (100 - 1) + 1) s.chanceToBeLivingCell) = true
  · simp [h]
  · simp [h, lightblue_ne_empty]

lemma initFold_cons (a : Coord) (l : List Coord) (s : ProgState) :
    initFold (a :: l) s = initFold l (initCellStep s a.1 a.2) := rfl

lemma initFold_append (l1 l2 : List Coord) (s : ProgState) :
    initFold (l1 ++ l2) s = initFold l2 (initFold l1 s) := by
  unfold initFold
  rw [List.foldl_append]

lemma initFold_map_row (i : ℕ) (l : List ℕ) (s : ProgState) :
    initFold (l.map (fun j => (i, j))) s = l.foldl (fun s j => initCellStep s i j) s := by
  unfold initFold
  rw [List.foldl_map]

lemma initializeUniverse_eq_initFold (st : ProgState) :
    initializeUniverse st = initFold allCoords st := by
  unfold initializeUniverse allCoords
  generalize List.range ROWS = l1
  induction l1 generalizing st with
  | nil => rfl
  | cons a t ih =>
      rw [List.foldl_cons, List.flatMap_cons, initFold_append, initFold_map_row, ih]

lemma initFold_chance (l : List Coord) (s : ProgState) :
    (initFold l s).chanceToBeLivingCell = s.chanceToBeLivingCell := by
  induction l generalizing s with
  | nil => rfl
  | cons a t ih => rw [initFold_cons, ih, initCellStep_chance]

lemma initFold_rng (l : List Coord) (s : ProgState) :
    (initFold l s).rng = s.rng := by
  induction l generalizing s with
  | nil => rfl
  | cons a t ih => rw [initFold_cons, ih, initCellStep_rng]

lemma initFold_cells_ids (l : List Coord) (s : ProgState) :
    (initFold l s).cells.map Cell.id = s.cells.map Cell.id ++ l := by
  induction l generalizing s with
  | nil => simp [initFold]
  | cons a t ih =>
      rw [initFold_cons, ih, initCellStep_cells]
      simp

lemma initFold_isSome (l : List Coord) (s : ProgState) (k : Coord) :
    (jsGet (initFold l s).currentCellState k).isSome ↔
      (jsGet s.currentCellState k).isSome ∨ k ∈ l := by
  induction l generalizing s with
  | nil => simp [initFold]
  | cons a t ih =>
      rw [initFold_cons, ih, initCellStep_cur, jsGet_isSome_jsSet]
      simp only [List.mem_cons]
      tauto

lemma initFold_nodup (l : List Coord) (s : ProgState)
    (h : (s.currentCellState.map Prod.fst).Nodup) :
    ((initFold l s).currentCellState.map Prod.fst).Nodup := by
  induction l generalizing s with
  | nil => exact h
  | cons a t ih =>
      rw [initFold_cons]
      refine ih (initCellStep s a.1 a.2) ?_
      rw [initCellStep_cur]
      exact jsSet_nodupKeys _ _ _ h

lemma initFold_not_mem (l : List Coord) (s : ProgState) (k : Coord) (h : k ∉ l) :
    jsGet (initFold l s).currentCellState k = jsGet s.currentCellState k := by
  induction l generalizing s with
  | nil => rfl
  | cons a t ih =>
      simp only [List.mem_cons, not_or] at h
      rw [initFold_cons, ih (initCellStep s a.1 a.2) h.2, initCellStep_cur]
      exact jsGet_jsSet_ne _ _ _ _ (by simpa using h.1)

lemma initFold_mem_01 (l : List Coord) (s : ProgState) (k : Coord) (h : k ∈ l) :
    ∃ v, (v = 0 ∨ v = 1) ∧ jsGet (initFold l s).currentCellState k = some v := by
  induction l generalizing s with
  | nil => simp at h
  | cons a t ih =>
      by_cases ht : k ∈ t
      · rw [initFold_cons]
        exact ih (initCellStep s a.1 a.2) ht
      · have hka : k = a := by
          rcases List.mem_cons.mp h with h1 | h1
          · exact h1
          · exact absurd h1 ht
        subst hka
        rw [initFold_cons, initFold_not_mem t _ k ht, initCellStep_cur]
        refine ⟨if initCond s then 1 else 0, by split <;> simp, ?_⟩
        have : ((k.1, k.2) : Coord) = k := rfl
        rw [← this]
        exact jsGet_jsSet_self _ _ _

lemma initFold_zero (l : List Coord) (s : ProgState)
    (h : ∀ idx, (jsTruthy s.chanceToBeLivingCell &&
        jsLtNum (s.rng idx * (100 - 1) + 1) s.chanceToBeLivingCell) = false)
    (k : Coord) :
    jsGet (initFold l s).currentCellState k =
      if k ∈ l then some 0 else jsGet s.currentCellState k := by
  induction l generalizing s with
  | nil => simp [initFold]
  | cons a t ih =>
      have hcond : initCond s = false := by
        unfold initCond
        exact h s.rngIdx
      have h2 : ∀ idx, (jsTruthy (initCellStep s a.1 a.2).chanceToBeLivingCell &&
          jsLtNum ((initCellStep s a.1 a.2).rng idx * (100 - 1) + 1)
            (initCellStep s a.1 a.2).chanceToBeLivingCell) = false := by
        intro idx
        rw [initCellStep_chance, initCellStep_rng]
        exact h idx
      rw [initFold_cons, ih (initCellStep s a.1 a.2) h2, initCellStep_cur, hcond]
      by_cases ht : k ∈ t
      · simp [ht]
      · by_cases hka : k = a
        · subst hka
          have : ((k.1, k.2) : Coord) = k := rfl
          simp only [ht, if_false, this, jsGet_jsSet_self]
          simp
        · rw [if_neg ht, jsGet_jsSet_ne _ _ _ _ (by simpa using hka)]
          simp only [List.mem_cons, ht, or_false, hka, if_false]

/-- C5: the birth probability is not `p/100`.  With
`birthProbabilityPercent = 1` (a truthy value, so the random draw is
consulted), the birth test `Math.random() * (100 - 1) + 1 < 1` is false for
every possible draw `u ≥ 0`, since `u * 99 + 1 ≥ 1`.  So initialization marks
every cell dead with certainty — the probability of being alive is 0, not the
claimed `1/100`.  (In general the code's test makes a cell alive exactly when
`u < (p-1)/99`, probability `(p-1)/99`, not `p/100`.) -/
theorem C5_one_percent_chance_never_alive (st : ProgState)
    (hchance : st.chanceToBeLivingCell = some 1)
    (hrng : ∀ idx, 0 ≤ st.rng idx) :
    ∀ r c, r < ROWS → c < COLS →
      jsGet (initializeUniverse st).currentCellState (r, c) = some 0 := by
  intro r c hr hc
  rw [initializeUniverse_eq_initFold]
  have h : ∀ idx, (jsTruthy st.chanceToBeLivingCell &&
      jsLtNum (st.rng idx * (100 - 1) + 1) st.chanceToBeLivingCell) = false := by
    intro idx
    have hnlt : ¬ (st.rng idx * (100 - 1) + 1 < ((1 : ℚ))) := by
      have h0 : (0:ℚ) ≤ st.rng idx * (100 - 1) := by
        have := hrng idx
        nlinarith
      linarith
    have hlt : jsLtNum (st.rng idx * (100 - 1) + 1) (some 1) = false := by
      simp only [jsLtNum]
      exact decide_eq_false hnlt
    rw [hchance, hlt, Bool.and_false]
  rw [initFold_zero allCoords st h (r, c),
    if_pos ((mem_allCoords (r, c)).mpr ⟨hr, hc⟩)]

theorem C5_one_percent_chance_never_alive_witness :
    chanceOneState.chanceToBeLivingCell = some 1 ∧
      jsGet (initializeUniverse chanceOneState).currentCellState (0, 0) = some 0 :=
  ⟨rfl, C5_one_percent_chance_never_alive chanceOneState rfl (fun _ => le_refl 0)
    0 0 (by decide) (by decide)⟩

/-- C8: when the configured chance to be living is falsy (`0`, and likewise
`NaN`), `randomize()` — clear followed by re-initialization — leaves every
in-range coordinate dead: the short-circuited birth condition on line 68 is
false for every cell, so every stored value is 0. -/
theorem C8_randomize_falsy_all_dead (st : ProgState)
    (hfalsy : jsTruthy st.chanceToBeLivingCell = false) :
    ∀ r c, r < ROWS → c < COLS →
      jsGet (randomize st).currentCellState (r, c) = some 0 := by
  intro r c hr hc
  rw [randomize, initializeUniverse_eq_initFold]
  have h : ∀ idx, (jsTruthy (clearUniverse st).chanceToBeLivingCell &&
      jsLtNum ((clearUniverse st).rng idx * (100 - 1) + 1)
        (clearUniverse st).chanceToBeLivingCell) = false := by
    intro idx
    have hch : (clearUniverse st).chanceToBeLivingCell = st.chanceToBeLivingCell := rfl
    rw [hch, hfalsy, Bool.false_and]
  rw [initFold_zero allCoords (clearUniverse st) h (r, c),
    if_pos ((mem_allCoords (r, c)).mpr ⟨hr, hc⟩)]

theorem C8_randomize_falsy_all_dead_witness :
    jsTruthy chanceZeroState.chanceToBeLivingCell = false ∧
      jsGet (randomize chanceZeroState).currentCellState (0, 0) = some 0 :=
  ⟨by decide, C8_randomize_falsy_all_dead chanceZeroState (by decide)
    0 0 (by decide) (by decide)⟩

lemma clearUniverse_cells (st : ProgState) :
    (clearUniverse st).cells =
      st.cells.map (fun cell => { cell with backgroundColor := WHITE }) := rfl

lemma applyRule_01 (v : ℕ) (c : ℤ) (hv : v = 0 ∨ v = 1) :
    applyRule v c = 0 ∨ applyRule v c = 1 := by
  unfold applyRule
  split_ifs <;> tauto

/-- C7: `clearUniverse` resets the generation counter to 0, zeroes the value
of every in-range coordinate, changes no key of the mapping (the grid
dimensions are untouched), and is idempotent on the grid: clearing twice
yields the same all-dead mapping with generation 0 as clearing once.  The
hypotheses record that every in-range coordinate has a cell element (as
established at startup) and that every cell element's id is a key of the
mapping. -/
theorem C7_clear_zeroes_and_idempotent (st : ProgState)
    (hcover : ∀ r c, r < ROWS → c < COLS → ((r, c) : Coord) ∈ st.cells.map Cell.id)
    (hkeys : ∀ cell ∈ st.cells, (jsGet st.currentCellState cell.id).isSome) :
    (clearUniverse st).generation = 0 ∧
    (∀ r c, r < ROWS → c < COLS →
      jsGet (clearUniverse st).currentCellState (r, c) = some 0) ∧
    (∀ k, (jsGet (clearUniverse st).currentCellState k).isSome ↔
      (jsGet st.currentCellState k).isSome) ∧
    (clearUniverse (clearUniverse st)).currentCellState =
      (clearUniverse st).currentCellState ∧
    (clearUniverse (clearUniverse st)).generation = (clearUniverse st).generation := by
  refine ⟨rfl, ?_, ?_, ?_, rfl⟩
  · intro r c hr hc
    have h1 := genFold_const_zero Cell.id st.cells st.currentCellState ((r, c) : Coord)
    rw [if_pos (hcover r c hr hc)] at h1
    exact h1
  · intro k
    have h1 := genFold_jsGet_isSome Cell.id (fun _ => 0) st.cells st.currentCellState k
    constructor
    · intro hk
      rcases h1.mp hk with h2 | h2
      · exact h2
      · obtain ⟨cell, hcell, rfl⟩ := List.mem_map.mp h2
        exact hkeys cell hcell
    · intro hk
      exact h1.mpr (Or.inl hk)
  · have hcond : ∀ e ∈ (clearUniverse st).cells,
        (jsGet (clearUniverse st).currentCellState (Cell.id e)).isSome ∧
        ∀ kv ∈ (clearUniverse st).currentCellState, kv.1 = Cell.id e → kv.2 = 0 := by
      intro e he
      rw [clearUniverse_cells] at he
      obtain ⟨cell, hcell, rfl⟩ := List.mem_map.mp he
      have hid : Cell.id { cell with backgroundColor := WHITE } = cell.id := rfl
      constructor
      · rw [hid]
        exact (genFold_jsGet_isSome Cell.id (fun _ => 0) st.cells
          st.currentCellState cell.id).mpr (Or.inr (List.mem_map_of_mem Cell.id hcell))
      · intro kv hkv hk1
        rw [hid] at hk1
        have hmem : kv.1 ∈ st.cells.map Cell.id :=
          hk1 ▸ List.mem_map_of_mem Cell.id hcell
        exact genFold_entries_written Cell.id st.cells st.currentCellState kv hkv hmem
    exact genFold_fixed Cell.id (clearUniverse st).cells
      (clearUniverse st).currentCellState hcond

lemma startupState_cells_ids : startupState.cells.map Cell.id = allCoords := by
  rw [startupState, initializeUniverse_eq_initFold, initFold_cells_ids]
  rfl

theorem C7_clear_zeroes_and_idempotent_witness :
    (clearUniverse startupState).generation = 0 ∧
      jsGet (clearUniverse startupState).currentCellState (0, 0) = some 0 := by
  have hcover : ∀ r c, r < ROWS → c < COLS →
      ((r, c) : Coord) ∈ startupState.cells.map Cell.id := by
    intro r c hr hc
    rw [startupState_cells_ids]
    exact (mem_allCoords (r, c)).mpr ⟨hr, hc⟩
  have hkeys : ∀ cell ∈ startupState.cells,
      (jsGet startupState.currentCellState cell.id).isSome := by
    intro cell hcell
    have hmem : cell.id ∈ allCoords :=
      startupState_cells_ids ▸ List.mem_map_of_mem Cell.id hcell
    rw [startupState, initializeUniverse_eq_initFold]
    exact (initFold_isSome allCoords blankState cell.id).mpr (Or.inr hmem)
  exact ⟨(C7_clear_zeroes_and_idempotent startupState hcover hkeys).1,
    (C7_clear_zeroes_and_idempotent startupState hcover hkeys).2.1
      0 0 (by decide) (by decide)⟩

/-- C9: the data-model invariant — exactly one entry per in-range coordinate,
none out of range, all values binary — holds after initialization (from any
state whose mapping has in-range, duplicate-free keys: the empty startup
object, or the grid left by a previous clear), and is preserved by every
evolution step and by clear.  The hypotheses record the program's standing
facts: the mapping's keys are in-range and duplicate-free, `nextCellState` is
the empty object between evolve calls, and every cell element's id is an
in-range coordinate. -/
theorem C9_mapping_invariant (st : ProgState)
    (hkeys : ∀ kv ∈ st.currentCellState, inRange kv.1)
    (hnodup : (st.currentCellState.map Prod.fst).Nodup)
    (hnext : st.nextCellState = [])
    (hcells : ∀ cell ∈ st.cells, inRange cell.id) :
    gridInvariant (initializeUniverse st).currentCellState ∧
    (gridInvariant st.currentCellState →
      gridInvariant (evolveState st).currentCellState) ∧
    (gridInvariant st.currentCellState →
      gridInvariant (clearUniverse st).currentCellState) := by
  refine ⟨?_, ?_, ?_⟩
  · -- initialization establishes the invariant
    rw [initializeUniverse_eq_initFold]
    have hnd2 := initFold_nodup allCoords st hnodup
    refine ⟨hnd2, fun k => ?_, fun kv hkv => ?_⟩
    · rw [initFold_isSome]
      constructor
      · intro hk
        exact Or.inr ((mem_allCoords k).mpr hk)
      · intro hk
        rcases hk with h2 | h2
        · obtain ⟨kv, hkv, rfl⟩ := List.mem_map.mp ((jsGet_isSome_iff_mem _ k).mp h2)
          exact hkeys kv hkv
        · exact (mem_allCoords k).mp h2
    · have hlook := jsGet_eq_of_nodup _ kv hnd2 hkv
      have hsome : (jsGet (initFold allCoords st).currentCellState kv.1).isSome := by
        rw [hlook]; rfl
      have hmem : kv.1 ∈ allCoords := by
        rcases (initFold_isSome allCoords st kv.1).mp hsome with h2 | h2
        · obtain ⟨kv1, hkv1, hfst⟩ := List.mem_map.mp ((jsGet_isSome_iff_mem _ kv.1).mp h2)
          exact (mem_allCoords kv.1).mpr (hfst ▸ hkeys kv1 hkv1)
        · exact h2
      obtain ⟨v, hv01, hvlook⟩ := initFold_mem_01 allCoords st kv.1 hmem
      rw [hlook] at hvlook
      rw [Option.some_inj.mp hvlook]
      exact hv01
  · -- evolve preserves the invariant
    intro hinv
    obtain ⟨hnd, hiff, hval⟩ := hinv
    rw [evolveState_cur st hnext, snapshotNext]
    unfold snapshotFold
    refine ⟨?_, fun k => ?_, fun kv hkv => ?_⟩
    · exact genFold_nodupKeys Prod.fst
        (fun e => applyRule e.2 (countNeighbors st.currentCellState e.1.1 e.1.2))
        st.currentCellState [] (by simp)
    · have h1 := genFold_jsGet_isSome Prod.fst
        (fun e => applyRule e.2 (countNeighbors st.currentCellState e.1.1 e.1.2))
        st.currentCellState [] k
      constructor
      · intro hk
        exact h1.mpr (Or.inr ((jsGet_isSome_iff_mem _ k).mp ((hiff k).mp hk)))
      · intro hk
        rcases h1.mp hk with h2 | h2
        · simp [jsGet] at h2
        · exact (hiff k).mpr ((jsGet_isSome_iff_mem _ k).mpr h2)
    · have h2 := genFold_mem Prod.fst
        (fun e => applyRule e.2 (countNeighbors st.currentCellState e.1.1 e.1.2))
        st.currentCellState [] kv hkv
      rcases h2 with h3 | ⟨e, he, rfl⟩
      · simp at h3
      · exact applyRule_01 e.2 _ (hval e he)
  · -- clear preserves the invariant
    intro hinv
    obtain ⟨hnd, hiff, hval⟩ := hinv
    refine ⟨?_, fun k => ?_, fun kv hkv => ?_⟩
    · exact genFold_nodupKeys Cell.id (fun _ => 0) st.cells st.currentCellState hnd
    · have h1 := genFold_jsGet_isSome Cell.id (fun _ => 0) st.cells st.currentCellState k
      constructor
      · intro hk
        exact h1.mpr (Or.inl ((hiff k).mp hk))
      · intro hk
        rcases h1.mp hk with h2 | h2
        · exact (hiff k).mpr h2
        · obtain ⟨cell, hcell, rfl⟩ := List.mem_map.mp h2
          exact hcells cell hcell
    · have h2 := genFold_mem Cell.id (fun _ => 0) st.cells st.currentCellState kv hkv
      rcases h2 with h3 | ⟨e, he, rfl⟩
      · exact hval kv h3
      · exact Or.inl rfl

theorem C9_mapping_invariant_witness :
    gridInvariant (initializeUniverse blankState).currentCellState :=
  (C9_mapping_invariant blankState (fun kv h => absurd h (List.not_mem_nil kv))
    (by simp [blankState]) rfl (fun cell h => absurd h (List.not_mem_nil cell))).1

end GameOfLife
